import Mathlib

set_option maxHeartbeats 1000000

/-!
Shallow embedding of `pkg/gadgettracermanager/containerutils/containerutils.go`.

The Go file under verification parses JSON with the standard library
`encoding/json`, so the embedding first models the relevant slice of that
library: a strict JSON scanner/parser producing a `Jv` value, and
field-by-field unmarshalling into the Go struct shapes the file decodes into
(`ocispec.State`, `[]DockerInspect`, `struct{ Pid int }`).  Inputs are
`List Char`, the byte payloads of the Go code (all inputs of interest are
valid UTF-8).  Number literals are kept as raw text because Go defers the
integer conversion of an `int` field to `strconv.ParseInt`.
-/

/-- JSON values as produced by the Go `encoding/json` scanner. -/
inductive Jv where
  | null
  | bool (b : Bool)
  | num (lit : List Char)
  | str (s : List Char)
  | arr (elems : List Jv)
  | obj (fields : List (List Char × Jv))

/-- ASCII digit test, as used by the Go json number scanner. -/
def isDig (c : Char) : Bool := '0' ≤ c && c ≤ '9'

/-- Skip the whitespace the Go json scanner skips: space, tab, newline, CR. -/
def skipWs (cs : List Char) : List Char :=
  cs.dropWhile (fun c => c == ' ' || c == '\t' || c == '\n' || c == '\r')

/-- Value of one hexadecimal digit, for `\uXXXX` string escapes. -/
def hexDigitVal (c : Char) : Option Nat :=
  if '0' ≤ c ∧ c ≤ '9' then some (c.toNat - '0'.toNat)
  else if 'a' ≤ c ∧ c ≤ 'f' then some (c.toNat - 'a'.toNat + 10)
  else if 'A' ≤ c ∧ c ≤ 'F' then some (c.toNat - 'A'.toNat + 10)
  else none

/-- Value of a four-digit hexadecimal escape. -/
def hex4 (a b c d : Char) : Option Nat :=
  match hexDigitVal a, hexDigitVal b, hexDigitVal c, hexDigitVal d with
  | some x, some y, some z, some w => some (((x * 16 + y) * 16 + z) * 16 + w)
  | _, _, _, _ => none

/-- Single-character string escapes accepted by the Go json scanner. -/
def escChar : Char → Option Char
  | '"' => some '"'
  | '\\' => some '\\'
  | '/' => some '/'
  | 'b' => some (Char.ofNat 8)
  | 'f' => some (Char.ofNat 12)
  | 'n' => some '\n'
  | 'r' => some (Char.ofNat 13)
  | 't' => some '\t'
  | _ => none

/-- Parse the body of a JSON string (after the opening quote) with fuel,
returning the decoded characters and the rest of the input after the closing
quote.  Mirrors the Go scanner (reject control characters and bad escapes)
combined with `unquote` (decode escapes; unpaired surrogates become U+FFFD).
Each step consumes at least one character, so `pStr` supplies length-based
fuel that can never run out. -/
def pStrF : Nat → List Char → Option (List Char × List Char)
  | 0, _ => none
  | Nat.succ _, [] => none
  | Nat.succ _, '"' :: r => some ([], r)
  | Nat.succ f, '\\' :: 'u' :: h1 :: h2 :: h3 :: h4 :: r2 =>
    match hex4 h1 h2 h3 h4 with
    | none => none
    | some u =>
      if 0xD800 ≤ u ∧ u ≤ 0xDFFF then
        match r2 with
        | '\\' :: 'u' :: k1 :: k2 :: k3 :: k4 :: r3 =>
          match hex4 k1 k2 k3 k4 with
          | some u2 =>
            if 0xD800 ≤ u ∧ u ≤ 0xDBFF ∧ 0xDC00 ≤ u2 ∧ u2 ≤ 0xDFFF then
              (pStrF f r3).map (fun p =>
                (Char.ofNat (0x10000 + (u - 0xD800) * 0x400 + (u2 - 0xDC00)) :: p.1, p.2))
            else
              (pStrF f ('\\' :: 'u' :: k1 :: k2 :: k3 :: k4 :: r3)).map
                (fun p => (Char.ofNat 0xFFFD :: p.1, p.2))
          | none =>
            (pStrF f ('\\' :: 'u' :: k1 :: k2 :: k3 :: k4 :: r3)).map
              (fun p => (Char.ofNat 0xFFFD :: p.1, p.2))
        | _ => (pStrF f r2).map (fun p => (Char.ofNat 0xFFFD :: p.1, p.2))
      else
        (pStrF f r2).map (fun p => (Char.ofNat u :: p.1, p.2))
  | Nat.succ f, '\\' :: e :: r2 =>
    match escChar e with
    | some c => (pStrF f r2).map (fun p => (c :: p.1, p.2))
    | none => none
  | Nat.succ f, c :: r =>
    if c.toNat < 32 then none else (pStrF f r).map (fun p => (c :: p.1, p.2))

/-- Parse a JSON string body, with sufficient fuel. -/
def pStr (cs : List Char) : Option (List Char × List Char) :=
  pStrF (cs.length + 1) cs

/-- Integer part of a JSON number after the optional sign: `0`, or a nonzero
digit followed by digits, per the Go json scanner grammar. -/
def pIntPart : List Char → Option (List Char × List Char)
  | '0' :: r => some (['0'], r)
  | c :: r => if isDig c then some (c :: r.takeWhile isDig, r.dropWhile isDig) else none
  | [] => none

/-- Optional fraction part of a JSON number. -/
def pFracPart : List Char → Option (List Char × List Char)
  | '.' :: r =>
    let ds := r.takeWhile isDig
    if ds = [] then none else some ('.' :: ds, r.dropWhile isDig)
  | cs => some ([], cs)

/-- Optional exponent part of a JSON number. -/
def pExpPart : List Char → Option (List Char × List Char)
  | c :: r =>
    if c = 'e' ∨ c = 'E' then
      let sr : List Char × List Char :=
        match r with
        | '+' :: r2 => (['+'], r2)
        | '-' :: r2 => (['-'], r2)
        | _ => ([], r)
      let ds := sr.2.takeWhile isDig
      if ds = [] then none else some (c :: sr.1 ++ ds, sr.2.dropWhile isDig)
    else some ([], c :: r)
  | [] => some ([], [])

/-- Parse a JSON number literal, returning its raw text and the rest. -/
def pNum (cs : List Char) : Option (List Char × List Char) :=
  let sc : List Char × List Char :=
    match cs with
    | '-' :: r => (['-'], r)
    | _ => ([], cs)
  match pIntPart sc.2 with
  | none => none
  | some (ip, r1) =>
    match pFracPart r1 with
    | none => none
    | some (fp, r2) =>
      match pExpPart r2 with
      | none => none
      | some (ep, r3) => some (sc.1 ++ ip ++ fp ++ ep, r3)

mutual

/-- Parse one JSON value; fuel bounds the recursion and `parseJson` supplies
enough of it for any input.  Mirrors the Go json scanner grammar. -/
def pVal : Nat → List Char → Option (Jv × List Char)
  | 0, _ => none
  | Nat.succ f, cs =>
    match skipWs cs with
    | 'n' :: 'u' :: 'l' :: 'l' :: r => some (.null, r)
    | 't' :: 'r' :: 'u' :: 'e' :: r => some (.bool true, r)
    | 'f' :: 'a' :: 'l' :: 's' :: 'e' :: r => some (.bool false, r)
    | '"' :: r =>
      match pStr r with
      | none => none
      | some (s, r2) => some (.str s, r2)
    | '[' :: r =>
      match skipWs r with
      | ']' :: r2 => some (.arr [], r2)
      | r2 => pElems f r2 []
    | '\x7b' :: r =>
      match skipWs r with
      | '\x7d' :: r2 => some (.obj [], r2)
      | r2 => pMembers f r2 []
    | c :: r =>
      if c = '-' || isDig c then
        match pNum (c :: r) with
        | none => none
        | some (lit, r2) => some (.num lit, r2)
      else none
    | [] => none

/-- Parse the elements of a non-empty JSON array. -/
def pElems : Nat → List Char → List Jv → Option (Jv × List Char)
  | 0, _, _ => none
  | Nat.succ f, cs, acc =>
    match pVal f cs with
    | none => none
    | some (v, r) =>
      match skipWs r with
      | ',' :: r2 => pElems f r2 (acc ++ [v])
      | ']' :: r2 => some (.arr (acc ++ [v]), r2)
      | _ => none

/-- Parse the members of a non-empty JSON object. -/
def pMembers : Nat → List Char → List (List Char × Jv) → Option (Jv × List Char)
  | 0, _, _ => none
  | Nat.succ f, cs, acc =>
    match skipWs cs with
    | '"' :: r =>
      match pStr r with
      | none => none
      | some (k, r2) =>
        match skipWs r2 with
        | ':' :: r3 =>
          match pVal f r3 with
          | none => none
          | some (v, r4) =>
            match skipWs r4 with
            | ',' :: r5 => pMembers f r5 (acc ++ [(k, v)])
            | '\x7d' :: r5 => some (.obj (acc ++ [(k, v)]), r5)
            | _ => none
        | _ => none
    | _ => none

end

/-- Full strict decode of a payload into one JSON value, modelling
`encoding/json` validity checking: one value, optionally surrounded by
whitespace, with nothing trailing. -/
def parseJson (cs : List Char) : Option Jv :=
  match pVal (2 * cs.length + 4) cs with
  | none => none
  | some (v, rest) => if skipWs rest = [] then some v else none

/-!
Unmarshalling into the Go struct shapes used by `containerutils.go`.
-/

/-- Error classes of `json.Unmarshal` relevant here: a syntax error from the
scanner (nothing is stored), or a type/value error (decoding continues and
the first error is returned at the end). -/
inductive UnmErr where
  | syntaxError
  | typeMismatch
  deriving DecidableEq

/-- Shallow embedding of the vendored `ocispec.State` struct:
Version `json:"ociVersion"`, ID `json:"id"`, Status `json:"status"`,
Pid `json:"pid,omitempty"`, Bundle `json:"bundle"`,
Annotations `json:"annotations,omitempty"` (field `annots` here). -/
structure GoState where
  ociVersion : String := ""
  id : String := ""
  status : String := ""
  pid : Int := 0
  bundle : String := ""
  annots : Option (List (List Char × List Char)) := none
  deriving DecidableEq

/-- ASCII lower-casing of one character, modelling Go json's case-insensitive
field-name matching. -/
def lowerAscii (c : Char) : Char :=
  if 'A' ≤ c ∧ c ≤ 'Z' then Char.ofNat (c.toNat + 32) else c

/-- Case-fold a JSON object key for struct-field matching. -/
def foldKey (k : List Char) : List Char := k.map lowerAscii

def keyOciVersion : List Char := ['o', 'c', 'i', 'v', 'e', 'r', 's', 'i', 'o', 'n']

def keyId : List Char := ['i', 'd']

def keyStatus : List Char := ['s', 't', 'a', 't', 'u', 's']

def keyPid : List Char := ['p', 'i', 'd']

def keyBundle : List Char := ['b', 'u', 'n', 'd', 'l', 'e']

def keyAnnots : List Char :=
  ['a', 'n', 'n', 'o', 't', 'a', 't', 'i', 'o', 'n', 's']

/-- Keep the first recorded unmarshal error, adding a type error if `bad`. -/
def keepFirst (e : Option UnmErr) (bad : Bool) : Option UnmErr :=
  match e with
  | some _ => e
  | none => if bad then some .typeMismatch else none

/-- Store a JSON value into a Go `string` field: strings store, null is a
no-op, anything else is a type error that leaves the field unchanged. -/
def setStr (cur : String) (v : Jv) : String × Bool :=
  match v with
  | .null => (cur, false)
  | .str s => (String.mk s, false)
  | _ => (cur, true)

/-- Sum of a nonempty run of decimal digits, else none. -/
def digitsVal (cs : List Char) : Option Nat :=
  if cs = [] then none
  else if cs.all isDig then
    some (cs.foldl (fun n c => n * 10 + (c.toNat - '0'.toNat)) 0)
  else none

/-- Models `strconv.ParseInt(lit, 10, 64)` as json uses it for `int` fields:
optional sign, decimal digits only, 64-bit signed range. -/
def parseIntLit (cs : List Char) : Option Int :=
  match cs with
  | '+' :: r =>
    (digitsVal r).bind (fun n => if n ≤ 2 ^ 63 - 1 then some (Int.ofNat n) else none)
  | '-' :: r =>
    (digitsVal r).bind (fun n => if n ≤ 2 ^ 63 then some (-(Int.ofNat n)) else none)
  | _ =>
    (digitsVal cs).bind (fun n => if n ≤ 2 ^ 63 - 1 then some (Int.ofNat n) else none)

/-- Store a JSON value into a Go `int` field: integer number literals in
range store, null is a no-op, anything else is a type error that leaves the
field unchanged. -/
def setInt (cur : Int) (v : Jv) : Int × Bool :=
  match v with
  | .null => (cur, false)
  | .num lit =>
    match parseIntLit lit with
    | some n => (n, false)
    | none => (cur, true)
  | _ => (cur, true)

def jvString (v : Jv) : Option (List Char) :=
  match v with
  | .str s => some s
  | _ => none

def annValOk (v : Jv) : Bool :=
  match v with
  | .str _ => true
  | .null => true
  | _ => false

/-- Store a JSON value into the `map[string]string` Annotations field: an
object stores its entries (a non-string, non-null entry value is a type
error), null is a no-op, anything else is a type error. -/
def setAnn (cur : Option (List (List Char × List Char))) (v : Jv) :
    Option (List (List Char × List Char)) × Bool :=
  match v with
  | .null => (cur, false)
  | .obj kvs =>
    (some (kvs.map (fun kv => (kv.1, (jvString kv.2).getD []))),
     kvs.any (fun kv => !annValOk kv.2))
  | _ => (cur, true)

/-- Decode one object member into the State struct, keeping the first error
and ignoring unknown keys, as Go json does. -/
def stepField (acc : GoState × Option UnmErr) (kv : List Char × Jv) :
    GoState × Option UnmErr :=
  let k := foldKey kv.1
  if k = keyOciVersion then
    let r := setStr acc.1.ociVersion kv.2
    ({ acc.1 with ociVersion := r.1 }, keepFirst acc.2 r.2)
  else if k = keyId then
    let r := setStr acc.1.id kv.2
    ({ acc.1 with id := r.1 }, keepFirst acc.2 r.2)
  else if k = keyStatus then
    let r := setStr acc.1.status kv.2
    ({ acc.1 with status := r.1 }, keepFirst acc.2 r.2)
  else if k = keyPid then
    let r := setInt acc.1.pid kv.2
    ({ acc.1 with pid := r.1 }, keepFirst acc.2 r.2)
  else if k = keyBundle then
    let r := setStr acc.1.bundle kv.2
    ({ acc.1 with bundle := r.1 }, keepFirst acc.2 r.2)
  else if k = keyAnnots then
    let r := setAnn acc.1.annots kv.2
    ({ acc.1 with annots := r.1 }, keepFirst acc.2 r.2)
  else acc

/-- `json.Unmarshal` of a decoded JSON value into a State struct starting
from `init`: null is a no-op, an object is decoded field by field recording
the first error while continuing, anything else is a type error. -/
def unmJ (init : GoState) (v : Jv) : GoState × Option UnmErr :=
  match v with
  | .null => (init, none)
  | .obj kvs => kvs.foldl stepField (init, none)
  | _ => (init, some .typeMismatch)

/-- `json.Unmarshal(cs, state)` for the State struct: scan the whole payload
first (a syntax error stores nothing), then decode. -/
def goUnmarshal (cs : List Char) (init : GoState) : GoState × Option UnmErr :=
  match parseJson cs with
  | none => (init, some .syntaxError)
  | some v => unmJ init v

/-!
`ParseOCIState` and its recovery heuristic.  The Go code applies the regexp
`(?ms)^(.*),"annotations":.*$` with `FindStringSubmatch`; the first group is
greedy and `(?s)` lets `.` cross newlines, so when the marker substring
`,"annotations":` occurs at all, the whole string matches and the first
group captures everything before the marker's last occurrence.  `lastSplit`
computes exactly that group.
-/

/-- The characters of the recovery marker `,"annotations":`. -/
def annMarker : List Char :=
  [',', '"', 'a', 'n', 'n', 'o', 't', 'a', 't', 'i', 'o', 'n', 's', '"', ':']

/-- Whether a string contains an occurrence of `annMarker`. -/
def hasOcc : List Char → Bool
  | [] => false
  | c :: rest => List.isPrefixOf annMarker (c :: rest) || hasOcc rest

/-- The text before the last occurrence of `annMarker`, i.e. the first
capture group of the Go recovery regexp, if the marker occurs at all. -/
def lastSplit : List Char → Option (List Char)
  | [] => none
  | c :: rest =>
    match lastSplit rest with
    | some a => some (c :: a)
    | none => if List.isPrefixOf annMarker (c :: rest) then some [] else none

/-- Errors of `ParseOCIState`: the regexp did not match (`unparseableState`,
Go's first `cannot parse OCI state: matches=...` error, carrying the original
decode error and the raw payload) or the retried decode failed
(`unparseableStateRetried`, Go's second `cannot parse OCI state` error). -/
inductive OciErr where
  | unparseableState (orig : UnmErr) (raw : List Char)
  | unparseableStateRetried (second : UnmErr) (raw : List Char)
  deriving DecidableEq

/-- Embedding of `ParseOCIState`: strict decode; on failure, cut the payload
before the last `,"annotations":` occurrence, re-close the object with `}`
and decode again into the same (possibly partially populated) State value.
On success return the State's ID and Pid; on failure return zero values and
the error. -/
def ParseOCIState (stateBuf : List Char) : String × Int × Option OciErr :=
  match goUnmarshal stateBuf ({} : GoState) with
  | (st, none) => (st.id, st.pid, none)
  | (st1, some e1) =>
    match lastSplit stateBuf with
    | none => ("", 0, some (.unparseableState e1 stateBuf))
    | some pre =>
      match goUnmarshal (pre ++ ['\x7d']) st1 with
      | (st, none) => (st.id, st.pid, none)
      | (_, some e2) => ("", 0, some (.unparseableStateRetried e2 stateBuf))

/-!
`GetCgroupPaths`: the Go code opens `/proc/<pid>/cgroup` and iterates
`bufio.Reader.ReadString('\n')`, which returns each chunk up to and
including a newline; at end of input it returns the leftover bytes together
with an error, and the loop breaks on the error before processing them, so
only newline-terminated lines are examined.  The embedding takes the file
content as `Option (List Char)` (`none` = the open failed).
-/

/-- The complete (newline-terminated) lines of a character stream, each
including its final newline; a trailing partial line is discarded, exactly
as the Go read loop does. -/
def lineSplit : List Char → List Char → List (List Char)
  | [], _ => []
  | c :: rest, acc =>
    if c = '\n' then (c :: acc).reverse :: lineSplit rest []
    else lineSplit rest (c :: acc)

/-- The characters of the v1 marker `1:name=systemd:`. -/
def v1Marker : List Char :=
  ['1', ':', 'n', 'a', 'm', 'e', '=', 's', 'y', 's', 't', 'e', 'm', 'd', ':']

/-- The characters of the v2 marker `0::`. -/
def v2Marker : List Char := ['0', ':', ':']

/-- `strings.TrimSuffix(l, "\n")`: drop a final newline if present. -/
def trimNl (l : List Char) : List Char :=
  if l.getLast? = some '\n' then l.dropLast else l

/-- One iteration of the Go line loop: a line with the v1 prefix updates the
v1 path, a line with the v2 prefix updates the v2 path, and every other line
is skipped.  Later lines overwrite earlier ones. -/
def cgStep (acc : List Char × List Char) (line : List Char) :
    List Char × List Char :=
  if List.isPrefixOf v1Marker line then
    (trimNl (line.drop v1Marker.length), acc.2)
  else if List.isPrefixOf v2Marker line then
    (acc.1, trimNl (line.drop v2Marker.length))
  else acc

/-- Error kinds of `GetCgroupPaths`: `notFound` is Go's
`cannot parse cgroup: ...` (unreadable file) and `noCgroup` is
`cannot find cgroup path in /proc/PID/cgroup` (both paths empty). -/
inductive CgErr where
  | notFound
  | noCgroup
  deriving DecidableEq

/-- Embedding of `GetCgroupPaths` over the content of the process's
`/proc/<pid>/cgroup` file (`none` when the file cannot be opened). -/
def GetCgroupPaths (file : Option (List Char)) :
    Except CgErr (List Char × List Char) :=
  match file with
  | none => .error .notFound
  | some content =>
    let pr := List.foldl cgStep ([], []) (lineSplit content [])
    let q1 := if pr.1 = ['/'] then [] else pr.1
    let q2 := if pr.2 = ['/'] then [] else pr.2
    if q2 = [] ∧ q1 = [] then .error .noCgroup else .ok (q1, q2)

/-!
`GetCgroupID` and the cgo helper `get_cgroupid`.  The C helper allocates a
handle buffer, calls `name_to_handle_at` with `handle_bytes = 8`, and
returns 0 on allocation failure, on a syscall error, or when the resulting
handle size is not 8; otherwise it returns the 64-bit cgroup id from the
handle.  The kernel interaction is abstracted as a `HandleLookup` value.
-/

/-- Outcome of the memory allocation and `name_to_handle_at` call inside
`get_cgroupid`: allocation failure, syscall error, or a handle with its
byte size and the cgroup id it carries. -/
inductive HandleLookup where
  | allocFail
  | lookupErr
  | ok (handleBytes : Nat) (cgid : Nat)
  deriving DecidableEq

/-- Embedding of the C helper `get_cgroupid`. -/
def get_cgroupid : HandleLookup → Nat
  | .allocFail => 0
  | .lookupErr => 0
  | .ok handleBytes cgid => if handleBytes = 8 then cgid else 0

/-- The single error kind of `GetCgroupID` (`GetCgroupID on %q failed`). -/
inductive CgidErr where
  | lookupFailed
  deriving DecidableEq

/-- Embedding of `GetCgroupID`: the helper's result is an error exactly when
it is 0. -/
def GetCgroupID (h : HandleLookup) : Except CgidErr Nat :=
  if get_cgroupid h = 0 then .error .lookupFailed else .ok (get_cgroupid h)

/-!
`PidFromContainerId`.  The runtime interactions are abstracted as an
environment: `dockerInspect` is the stdout of
`chroot /host docker inspect <id>` (`none` when the command fails), and
`containerStatus sock id` is the `Info` map of the CRI `ContainerStatus`
reply on the given socket (`none` when the dial or the RPC fails).
-/

def CONTAINERD_DEFAULT_SOCKET_PATH : String := "/run/containerd/containerd.sock"

def CRIO_DEFAULT_SOCKET_PATH : String := "/run/crio/crio.sock"

structure RuntimeEnv where
  dockerInspect : List Char → Option (List Char)
  containerStatus : String → List Char → Option (List (String × String))

/-- Error kinds of `PidFromContainerId`, one per distinct Go error return:
`execFailed` (the docker CLI call failed), `unmarshalErr` (a
`json.Unmarshal` error surfaced unchanged), `invalidOutput`
(`invalid output`: the docker inspect array does not have exactly one
element), `runtimeUnavailable` (the CRI call failed), `missingPid`
(`... doesn't contain 'pid'`), `atoiFailed` (`strconv.Atoi` failed),
`missingInfo` (`... doesn't contain 'info'`), `invalidPid`
(`invalid pid`), `unknownRuntime` (`unknown container runtime: <id>`). -/
inductive PidErr where
  | execFailed
  | unmarshalErr (e : UnmErr)
  | invalidOutput
  | runtimeUnavailable
  | missingPid
  | atoiFailed
  | missingInfo
  | invalidPid
  | unknownRuntime (id : List Char)
  deriving DecidableEq

def dockerPre : List Char := ['d', 'o', 'c', 'k', 'e', 'r', ':', '/', '/']

def crioPre : List Char := ['c', 'r', 'i', '-', 'o', ':', '/', '/']

def cdPre : List Char :=
  ['c', 'o', 'n', 't', 'a', 'i', 'n', 'e', 'r', 'd', ':', '/', '/']

def keyState : List Char := ['s', 't', 'a', 't', 'e']

/-- Decode the inner `State` struct of a docker inspect element (field
`Pid int`): the pid, plus a type-error flag, with Go's continue-on-error
behaviour. -/
def unmDockerState (cur : Int) (v : Jv) : Int × Bool :=
  match v with
  | .null => (cur, false)
  | .obj kvs =>
    kvs.foldl
      (fun acc kv =>
        if foldKey kv.1 = keyPid then
          let r := setInt acc.1 kv.2
          (r.1, acc.2 || r.2)
        else acc)
      (cur, false)
  | _ => (cur, true)

/-- Decode one element of the docker inspect array
(`struct { State struct { Pid int } }`). -/
def unmDockerElem (v : Jv) : Int × Bool :=
  match v with
  | .null => (0, false)
  | .obj kvs =>
    kvs.foldl
      (fun acc kv =>
        if foldKey kv.1 = keyState then
          let r := unmDockerState acc.1 kv.2
          (r.1, acc.2 || r.2)
        else acc)
      (0, false)
  | _ => (0, true)

/-- `json.Unmarshal` of the docker inspect output into `[]DockerInspect`:
the `State.Pid` of each element, plus the error. -/
def goUnmDocker (cs : List Char) : List Int × Option UnmErr :=
  match parseJson cs with
  | none => ([], some .syntaxError)
  | some .null => ([], none)
  | some (.arr es) =>
    (es.map (fun e => (unmDockerElem e).1),
     if es.any (fun e => (unmDockerElem e).2) then some .typeMismatch else none)
  | some _ => ([], some .typeMismatch)

/-- `json.Unmarshal` of the containerd `info` blob into
`struct{ Pid int }`: the pid, plus the error. -/
def goUnmCd (cs : List Char) : Int × Option UnmErr :=
  match parseJson cs with
  | none => (0, some .syntaxError)
  | some .null => (0, none)
  | some (.obj kvs) =>
    let r := kvs.foldl
      (fun acc kv =>
        if foldKey kv.1 = keyPid then
          let s := setInt acc.1 kv.2
          (s.1, acc.2 || s.2)
        else acc)
      ((0 : Int), false)
    (r.1, if r.2 then some .typeMismatch else none)
  | some _ => (0, some .typeMismatch)

/-- `strconv.Atoi`: optional sign, decimal digits, 64-bit signed range. -/
def goAtoi (s : String) : Option Int := parseIntLit s.toList

/-- Embedding of `PidFromContainerId`: dispatch on the id's runtime prefix
and run that runtime's resolution pipeline against the environment. -/
def PidFromContainerId (env : RuntimeEnv) (containerID : List Char) :
    Int × Option PidErr :=
  if List.isPrefixOf dockerPre containerID then
    match env.dockerInspect (containerID.drop dockerPre.length) with
    | none => (-1, some .execFailed)
    | some out =>
      match goUnmDocker out with
      | (_, some e) => (-1, some (.unmarshalErr e))
      | (pids, none) =>
        match pids with
        | [p] => (p, none)
        | _ => (-1, some .invalidOutput)
  else if List.isPrefixOf crioPre containerID then
    match env.containerStatus CRIO_DEFAULT_SOCKET_PATH
        (containerID.drop crioPre.length) with
    | none => (-1, some .runtimeUnavailable)
    | some info =>
      match info.lookup "pid" with
      | none => (-1, some .missingPid)
      | some pidStr =>
        match goAtoi pidStr with
        | none => (-1, some .atoiFailed)
        | some p => (p, none)
  else if List.isPrefixOf cdPre containerID then
    match env.containerStatus CONTAINERD_DEFAULT_SOCKET_PATH
        (containerID.drop cdPre.length) with
    | none => (-1, some .runtimeUnavailable)
    | some info =>
      match info.lookup "info" with
      | none => (-1, some .missingInfo)
      | some blob =>
        match goUnmCd blob.toList with
        | (_, some e) => (-1, some (.unmarshalErr e))
        | (p, none) => if p = 0 then (-1, some .invalidPid) else (p, none)
  else (-1, some (.unknownRuntime containerID))

/-- `annMarker` without its leading comma. -/
def annTail : List Char :=
  ['"', 'a', 'n', 'n', 'o', 't', 'a', 't', 'i', 'o', 'n', 's', '"', ':']

/-- The v2 contribution of one file line: the stripped path when the line
carries the v2 marker. -/
def v2cand (l : List Char) : Option (List Char) :=
  if List.isPrefixOf v2Marker l then some (trimNl (l.drop v2Marker.length))
  else none

/-!
Helper lemmas about the recovery-marker split.
-/

theorem lastSplit_eq_none {s : List Char} (h : hasOcc s = false) :
    lastSplit s = none := by
  induction s with
  | nil => rfl
  | cons c rest ih =>
    rw [show hasOcc (c :: rest) =
        (List.isPrefixOf annMarker (c :: rest) || hasOcc rest) from rfl,
      Bool.or_eq_false_iff] at h
    simp [lastSplit, ih h.2, h.1]

theorem hasOcc_append_no_comma (t junk : List Char) (ht : ',' ∉ t)
    (hj : hasOcc junk = false) : hasOcc (t ++ junk) = false := by
  induction t with
  | nil => simpa using hj
  | cons c t ih =>
    have hc : (',' == c) = false := by
      refine beq_eq_false_iff_ne.mpr ?_
      intro h
      exact ht (h ▸ List.mem_cons_self c t)
    have ht' : ',' ∉ t := fun h => ht (List.mem_cons_of_mem _ h)
    rw [List.cons_append,
      show hasOcc (c :: (t ++ junk)) =
        (List.isPrefixOf annMarker (c :: (t ++ junk)) || hasOcc (t ++ junk)) from rfl,
      ih ht']
    simp [annMarker, List.isPrefixOf_cons₂, hc]

theorem lastSplit_cons (c : Char) (rest : List Char) :
    lastSplit (c :: rest) =
      match lastSplit rest with
      | some a => some (c :: a)
      | none => if List.isPrefixOf annMarker (c :: rest) then some [] else none := by
  simp only [lastSplit]

theorem lastSplit_append (junk : List Char) (hj : hasOcc junk = false)
    (pre : List Char) : lastSplit (pre ++ (annMarker ++ junk)) = some pre := by
  induction pre with
  | nil =>
    have h2 : lastSplit (annTail ++ junk) = none :=
      lastSplit_eq_none (hasOcc_append_no_comma annTail junk (by decide) hj)
    have h3 : List.isPrefixOf annMarker (',' :: (annTail ++ junk)) = true := by
      rw [show (',' :: (annTail ++ junk)) = annMarker ++ junk from rfl]
      simp [List.isPrefixOf_iff_prefix]
    rw [List.nil_append,
      show annMarker ++ junk = ',' :: (annTail ++ junk) from rfl]
    rw [lastSplit_cons, h2, h3]
    rfl
  | cons c pre ih =>
    rw [List.cons_append, lastSplit_cons, ih]

/-!
Helper lemmas about field decoding and the cgroup line fold.
-/

theorem stepField_id_eq (acc : GoState × Option UnmErr) (kv : List Char × Jv)
    (h : foldKey kv.1 ≠ keyId) : (stepField acc kv).1.id = acc.1.id := by
  simp only [stepField]
  split_ifs <;> simp_all

theorem stepField_pid_eq (acc : GoState × Option UnmErr) (kv : List Char × Jv)
    (h : foldKey kv.1 ≠ keyPid) : (stepField acc kv).1.pid = acc.1.pid := by
  simp only [stepField]
  split_ifs <;> simp_all

theorem foldl_stepField_id (kvs : List (List Char × Jv))
    (acc : GoState × Option UnmErr)
    (h : ∀ kv ∈ kvs, foldKey kv.1 ≠ keyId) :
    ((kvs.foldl stepField acc).1).id = (acc.1).id := by
  induction kvs generalizing acc with
  | nil => rfl
  | cons kv kvs ih =>
    rw [List.foldl_cons, ih _ (fun x hx => h x (List.mem_cons_of_mem _ hx)),
      stepField_id_eq _ _ (h kv (List.mem_cons_self kv kvs))]

theorem foldl_stepField_pid (kvs : List (List Char × Jv))
    (acc : GoState × Option UnmErr)
    (h : ∀ kv ∈ kvs, foldKey kv.1 ≠ keyPid) :
    ((kvs.foldl stepField acc).1).pid = (acc.1).pid := by
  induction kvs generalizing acc with
  | nil => rfl
  | cons kv kvs ih =>
    rw [List.foldl_cons, ih _ (fun x hx => h x (List.mem_cons_of_mem _ hx)),
      stepField_pid_eq _ _ (h kv (List.mem_cons_self kv kvs))]

theorem v1_not_v2 (l : List Char) (h : List.isPrefixOf v1Marker l = true) :
    List.isPrefixOf v2Marker l = false := by
  cases l with
  | nil => exact absurd h (by decide)
  | cons c rest =>
    have hc : c = '1' := by
      rw [show v1Marker = '1' :: v1Marker.tail from rfl,
        List.isPrefixOf_cons₂, Bool.and_eq_true, beq_iff_eq] at h
      exact h.1.symm
    subst hc
    rfl

theorem foldl_cgStep_const (lines : List (List Char))
    (acc : List Char × List Char)
    (h : ∀ l ∈ lines, List.isPrefixOf v1Marker l = false ∧
      List.isPrefixOf v2Marker l = false) :
    List.foldl cgStep acc lines = acc := by
  induction lines generalizing acc with
  | nil => rfl
  | cons l ls ih =>
    obtain ⟨h1, h2⟩ := h l (List.mem_cons_self l ls)
    rw [List.foldl_cons, show cgStep acc l = acc by simp [cgStep, h1, h2],
      ih _ (fun x hx => h x (List.mem_cons_of_mem _ hx))]

theorem getLast?_cons_getD (x : α) (xs : List α) (b : α) :
    ((x :: xs).getLast?).getD b = (xs.getLast?).getD x := by
  induction xs generalizing x b with
  | nil => rfl
  | cons y ys ih => rw [List.getLast?_cons_cons, ih, ih]

theorem foldl_cgStep_snd (lines : List (List Char)) (a b : List Char) :
    (List.foldl cgStep (a, b) lines).2 =
      ((lines.filterMap v2cand).getLast?).getD b := by
  induction lines generalizing a b with
  | nil => rfl
  | cons l ls ih =>
    rw [List.foldl_cons]
    by_cases h1 : List.isPrefixOf v1Marker l = true
    · have h2 : List.isPrefixOf v2Marker l = false := v1_not_v2 l h1
      rw [show cgStep (a, b) l = (trimNl (l.drop v1Marker.length), b) by
          simp [cgStep, h1],
        ih, List.filterMap_cons_none (show v2cand l = none by simp [v2cand, h2])]
    · by_cases h2 : List.isPrefixOf v2Marker l = true
      · rw [show cgStep (a, b) l = (a, trimNl (l.drop v2Marker.length)) by
            simp [cgStep, h1, h2],
          ih,
          List.filterMap_cons_some
            (show v2cand l = some (trimNl (l.drop v2Marker.length)) by
              simp [v2cand, h2])]
        exact (getLast?_cons_getD _ _ _).symm
      · rw [show cgStep (a, b) l = (a, b) by simp [cgStep, h1, h2],
          ih, List.filterMap_cons_none (show v2cand l = none by simp [v2cand, h2])]

theorem isPrefixOf_append_self (l t : List Char) :
    List.isPrefixOf l (l ++ t) = true := by
  simp [List.isPrefixOf_iff_prefix]

theorem docker_not_crio (s : List Char) :
    List.isPrefixOf dockerPre (crioPre ++ s) = false := rfl

theorem cd_not_docker (s : List Char) :
    List.isPrefixOf dockerPre (cdPre ++ s) = false := rfl

theorem cd_not_crio (s : List Char) :
    List.isPrefixOf crioPre (cdPre ++ s) = false := rfl

theorem norm_ne_slash (x : List Char) :
    (if x = ['/'] then ([] : List Char) else x) ≠ ['/'] := by
  split_ifs with h
  · decide
  · exact h

/-!
The claims.
-/

/-- Claim C7: `ParseOCIState` applied to the exact payload
`{"id":"abc","pid":123}` returns id "abc", pid 123 and a nil error. -/
theorem parseOCIState_simple_payload :
    ParseOCIState ("\x7b\"id\":\"abc\",\"pid\":123\x7d".toList) =
      ("abc", 123, none) := rfl

/-- Claim C3: `GetCgroupPaths` fails with the `notFound` error kind when the
process's `/proc/<pid>/cgroup` file is unreadable, and with the distinct
`noCgroup` error kind when the file is readable but no complete line starts
with the `1:name=systemd:` v1 marker or the `0::` v2 marker (both resolved
paths are then empty). -/
theorem getCgroupPaths_error_kinds :
    GetCgroupPaths none = Except.error CgErr.notFound
    ∧ ∀ content : List Char,
        (∀ l ∈ lineSplit content [], List.isPrefixOf v1Marker l = false ∧
          List.isPrefixOf v2Marker l = false) →
        GetCgroupPaths (some content) = Except.error CgErr.noCgroup := by
  refine ⟨rfl, fun content h => ?_⟩
  simp only [GetCgroupPaths,
    foldl_cgStep_const (lineSplit content []) ([], []) h]
  rfl

/-- Witness for C3 at a readable one-line file with no marker line. -/
theorem getCgroupPaths_error_kinds_witness :
    GetCgroupPaths (some ("2:cpu:/x\n".toList)) = Except.error CgErr.noCgroup :=
  getCgroupPaths_error_kinds.2 _ (by decide)

/-- Claim C6: a cgroup path equal to "/" after stripping its marker prefix
and trailing newline is normalized to the empty string, for both the v1 and
the v2 hierarchy: the paths returned by `GetCgroupPaths` are never the
literal "/". -/
theorem getCgroupPaths_never_slash (file : Option (List Char))
    (p1 p2 : List Char) (h : GetCgroupPaths file = Except.ok (p1, p2)) :
    p1 ≠ ['/'] ∧ p2 ≠ ['/'] := by
  cases file with
  | none => simp [GetCgroupPaths] at h
  | some content =>
    simp only [GetCgroupPaths] at h
    generalize hq1 : (if (List.foldl cgStep ([], []) (lineSplit content [])).1 = ['/']
      then ([] : List Char)
      else (List.foldl cgStep ([], []) (lineSplit content [])).1) = q1 at h
    generalize hq2 : (if (List.foldl cgStep ([], []) (lineSplit content [])).2 = ['/']
      then ([] : List Char)
      else (List.foldl cgStep ([], []) (lineSplit content [])).2) = q2 at h
    split_ifs at h
    all_goals
      first
      | exact Except.noConfusion h
      | (simp only [Except.ok.injEq, Prod.mk.injEq] at h
         refine ⟨?_, ?_⟩
         · rw [← h.1, ← hq1]
           exact norm_ne_slash _
         · rw [← h.2, ← hq2]
           exact norm_ne_slash _)

/-- Witness for C6 at a concrete two-line file. -/
theorem getCgroupPaths_never_slash_witness :
    "/a".toList ≠ ['/'] ∧ "/b".toList ≠ ['/'] :=
  getCgroupPaths_never_slash
    (some ("1:name=systemd:/a\n0::/b\n".toList)) _ _ rfl

/-- Claim C5 counterexample: the file content `0::/\n` contains a line
starting with the unified marker `0::`, yet `GetCgroupPaths` does not return
a non-empty v2 path: the root path is normalized away and the call fails
with `noCgroup`. -/
theorem getCgroupPaths_root_v2_cex :
    (lineSplit ("0::/\n".toList) []).any
      (fun l => List.isPrefixOf v2Marker l) = true
    ∧ GetCgroupPaths (some ("0::/\n".toList)) = Except.error CgErr.noCgroup :=
  ⟨rfl, rfl⟩

/-- Claim C5 (amended): whenever the last complete `0::` line of the
readable file strips (marker and trailing newline removed) to a path that is
neither "/" nor empty, `GetCgroupPaths` succeeds and returns exactly that
stripped, non-empty path as the v2 path. -/
theorem getCgroupPaths_v2_path (content r : List Char)
    (hlast : ((lineSplit content []).filterMap v2cand).getLast? = some r)
    (hroot : r ≠ ['/']) (hne : r ≠ []) :
    ∃ p1, GetCgroupPaths (some content) = Except.ok (p1, r) := by
  have hsnd : (List.foldl cgStep ([], []) (lineSplit content [])).2 = r := by
    rw [foldl_cgStep_snd, hlast]
    rfl
  refine ⟨if (List.foldl cgStep ([], []) (lineSplit content [])).1 = ['/']
    then ([] : List Char)
    else (List.foldl cgStep ([], []) (lineSplit content [])).1, ?_⟩
  simp only [GetCgroupPaths, hsnd]
  rw [if_neg hroot, if_neg (fun hand => hne hand.1)]

/-- Witness for the amended C5 at a concrete file. -/
theorem getCgroupPaths_v2_path_witness :
    ∃ p1, GetCgroupPaths (some ("0::/foo\n".toList)) =
      Except.ok (p1, "/foo".toList) :=
  getCgroupPaths_v2_path _ _ (by decide) (by decide) (by decide)

/-- Claim C9: `GetCgroupID` never returns the pair (0, nil): a successful
result is always non-zero, and allocation failure, a syscall error, an
unexpected handle size, and a cgroup id of 0 each yield the `lookupFailed`
error. -/
theorem getCgroupID_nonzero_or_error :
    (∀ (h : HandleLookup) (r : Nat), GetCgroupID h = Except.ok r → r ≠ 0)
    ∧ GetCgroupID HandleLookup.allocFail = Except.error CgidErr.lookupFailed
    ∧ GetCgroupID HandleLookup.lookupErr = Except.error CgidErr.lookupFailed
    ∧ (∀ b c : Nat, b ≠ 8 →
        GetCgroupID (HandleLookup.ok b c) = Except.error CgidErr.lookupFailed)
    ∧ (∀ b : Nat,
        GetCgroupID (HandleLookup.ok b 0) = Except.error CgidErr.lookupFailed) := by
  refine ⟨?_, rfl, rfl, ?_, ?_⟩
  · intro h r hok
    by_cases hz : get_cgroupid h = 0
    · simp [GetCgroupID, hz] at hok
    · simp only [GetCgroupID, if_neg hz, Except.ok.injEq] at hok
      exact hok ▸ hz
  · intro b c hb
    simp [GetCgroupID, get_cgroupid, hb]
  · intro b
    have hz : get_cgroupid (HandleLookup.ok b 0) = 0 := by
      simp [get_cgroupid]
    simp [GetCgroupID, hz]

/-- Witness for C9 at a handle of unexpected size. -/
theorem getCgroupID_nonzero_or_error_witness :
    GetCgroupID (HandleLookup.ok 7 5) = Except.error CgidErr.lookupFailed :=
  getCgroupID_nonzero_or_error.2.2.2.1 7 5 (by decide)

/-- Claim C4: a container id carrying none of the three runtime prefixes
makes `PidFromContainerId` return the `unknownRuntime` error and pid -1
directly, for every environment (so no runtime backend is consulted). -/
theorem pidFromContainerId_unknown_runtime (env : RuntimeEnv)
    (cid : List Char)
    (h1 : List.isPrefixOf dockerPre cid = false)
    (h2 : List.isPrefixOf crioPre cid = false)
    (h3 : List.isPrefixOf cdPre cid = false) :
    PidFromContainerId env cid = (-1, some (PidErr.unknownRuntime cid)) := by
  simp [PidFromContainerId, h1, h2, h3]

/-- Witness for C4 at the id `ftp://x` in an inert environment. -/
theorem pidFromContainerId_unknown_runtime_witness :
    PidFromContainerId ⟨fun _ => none, fun _ _ => none⟩ ("ftp://x".toList) =
      (-1, some (PidErr.unknownRuntime ("ftp://x".toList))) :=
  pidFromContainerId_unknown_runtime _ _ (by decide) (by decide) (by decide)

/-- Claim C1 counterexample: a Docker inspect reply resolving to pid 0 (a
non-positive pid) makes `PidFromContainerId` return (0, nil) instead of an
invalid-pid error: the Docker variant performs no pid check at all. -/
theorem pidFromContainerId_docker_zero_pid_cex :
    goUnmDocker ("[\x7b\"State\":\x7b\"Pid\":0\x7d\x7d]".toList) = ([0], none)
    ∧ PidFromContainerId
        ⟨fun _ => some ("[\x7b\"State\":\x7b\"Pid\":0\x7d\x7d]".toList),
         fun _ _ => none⟩
        ("docker://x".toList) = (0, none) :=
  ⟨rfl, rfl⟩

/-- Claim C1 (amended): only the containerd variant validates the resolved
pid, and only against the exact value 0; the Docker and CRI-O variants
return whatever pid the runtime reported, including zero or negative values,
with a nil error, and the containerd variant returns non-zero (including
negative) pids with a nil error. -/
theorem pidFromContainerId_pid_checks :
    (∀ (env : RuntimeEnv) (s out : List Char) (p : Int),
      env.dockerInspect s = some out → goUnmDocker out = ([p], none) →
      PidFromContainerId env (dockerPre ++ s) = (p, none))
    ∧ (∀ (env : RuntimeEnv) (s : List Char) (info : List (String × String))
        (pidStr : String) (p : Int),
      env.containerStatus CRIO_DEFAULT_SOCKET_PATH s = some info →
      info.lookup "pid" = some pidStr → goAtoi pidStr = some p →
      PidFromContainerId env (crioPre ++ s) = (p, none))
    ∧ (∀ (env : RuntimeEnv) (s : List Char) (info : List (String × String))
        (blob : String),
      env.containerStatus CONTAINERD_DEFAULT_SOCKET_PATH s = some info →
      info.lookup "info" = some blob → goUnmCd blob.toList = (0, none) →
      PidFromContainerId env (cdPre ++ s) = (-1, some PidErr.invalidPid))
    ∧ (∀ (env : RuntimeEnv) (s : List Char) (info : List (String × String))
        (blob : String) (p : Int),
      env.containerStatus CONTAINERD_DEFAULT_SOCKET_PATH s = some info →
      info.lookup "info" = some blob → goUnmCd blob.toList = (p, none) →
      p ≠ 0 →
      PidFromContainerId env (cdPre ++ s) = (p, none)) := by
  refine ⟨?_, ?_, ?_, ?_⟩
  · intro env s out p h1 h2
    simp [PidFromContainerId, isPrefixOf_append_self, List.drop_left, h1, h2]
  · intro env s info pidStr p h1 h2 h3
    simp [PidFromContainerId, docker_not_crio, isPrefixOf_append_self,
      List.drop_left, h1, h2, h3]
  · intro env s info blob h1 h2 h3
    simp only [String.toList] at h3
    simp [PidFromContainerId, cd_not_docker, cd_not_crio,
      isPrefixOf_append_self, List.drop_left, h1, h2, h3]
  · intro env s info blob p h1 h2 h3 hp
    simp only [String.toList] at h3
    simp [PidFromContainerId, cd_not_docker, cd_not_crio,
      isPrefixOf_append_self, List.drop_left, h1, h2, h3, hp]

/-- Witness for the amended C1: containerd rejects a zero pid, CRI-O passes
a negative pid through unchecked. -/
theorem pidFromContainerId_pid_checks_witness :
    PidFromContainerId ⟨fun _ => none, fun _ _ => some [("info", "\x7b\x7d")]⟩
      (cdPre ++ "y".toList) = (-1, some PidErr.invalidPid)
    ∧ PidFromContainerId ⟨fun _ => none, fun _ _ => some [("pid", "-5")]⟩
      (crioPre ++ "z".toList) = (-5, none) :=
  ⟨pidFromContainerId_pid_checks.2.2.1 _ _ _ _ rfl rfl rfl,
   pidFromContainerId_pid_checks.2.1 _ _ _ _ _ rfl rfl rfl⟩

/-- Claim C2 counterexample: a payload made of the well-formed prefix
`{"id":"abc","pid":123` followed by the malformed trailing annotations field
`,"annotations":{,"annotations":x` fails strict decoding, and strict
decoding of the re-closed prefix yields ("abc", 123) without error, yet
`ParseOCIState` returns an error rather than that pair: the greedy capture
group cuts at the last marker occurrence, inside the malformed field. -/
theorem parseOCIState_greedy_marker_cex :
    "\x7b\"id\":\"abc\",\"pid\":123".toList ++
        (annMarker ++ "\x7b,\"annotations\":x".toList) =
      "\x7b\"id\":\"abc\",\"pid\":123,\"annotations\":\x7b,\"annotations\":x".toList
    ∧ parseJson
        ("\x7b\"id\":\"abc\",\"pid\":123,\"annotations\":\x7b,\"annotations\":x".toList) =
      none
    ∧ goUnmarshal ("\x7b\"id\":\"abc\",\"pid\":123\x7d".toList) ({} : GoState) =
      (({ id := "abc", pid := 123 } : GoState), none)
    ∧ ParseOCIState
        ("\x7b\"id\":\"abc\",\"pid\":123,\"annotations\":\x7b,\"annotations\":x".toList) =
      ("", 0, some (OciErr.unparseableStateRetried UnmErr.syntaxError
        ("\x7b\"id\":\"abc\",\"pid\":123,\"annotations\":\x7b,\"annotations\":x".toList))) :=
  ⟨rfl, rfl, rfl, rfl⟩

/-- Claim C2 (amended): for a payload that is not valid JSON and has the
form `prefix ++ \",\"annotations\":\" ++ junk` where the re-closed prefix
strictly decodes without error and the junk contains no further
`,"annotations":` occurrence, `ParseOCIState` returns the same (id, pid)
pair, with nil error, that strict decoding of the re-closed prefix yields. -/
theorem parseOCIState_recovery (pre junk : List Char) (st : GoState)
    (hpre : goUnmarshal (pre ++ ['\x7d']) ({} : GoState) = (st, none))
    (hsyn : parseJson (pre ++ (annMarker ++ junk)) = none)
    (hjunk : hasOcc junk = false) :
    ParseOCIState (pre ++ (annMarker ++ junk)) = (st.id, st.pid, none) := by
  have h1 : goUnmarshal (pre ++ (annMarker ++ junk)) ({} : GoState) =
      (({} : GoState), some UnmErr.syntaxError) := by
    unfold goUnmarshal
    rw [hsyn]
  simp only [ParseOCIState, h1, lastSplit_append junk hjunk pre, hpre]

/-- Witness for the amended C2 at a concrete malformed payload. -/
theorem parseOCIState_recovery_witness :
    ParseOCIState ("\x7b\"id\":\"abc\",\"pid\":123".toList ++
      (annMarker ++ "zzz".toList)) = ("abc", 123, none) :=
  parseOCIState_recovery _ _ ({ id := "abc", pid := 123 } : GoState)
    rfl rfl (by decide)

/-- Claim C8: a payload that fails strict decoding and contains no
`,"annotations":` marker makes `ParseOCIState` return the unparseable-state
error carrying the original decode error and the raw payload, with zero
values in place of (id, pid). -/
theorem parseOCIState_no_marker_error (buf : List Char) (st1 : GoState)
    (e1 : UnmErr) (h1 : goUnmarshal buf ({} : GoState) = (st1, some e1))
    (h2 : hasOcc buf = false) :
    ParseOCIState buf = ("", 0, some (OciErr.unparseableState e1 buf)) := by
  simp only [ParseOCIState, h1, lastSplit_eq_none h2]

/-- Witness for C8 at the payload `{`. -/
theorem parseOCIState_no_marker_error_witness :
    ParseOCIState ("\x7b".toList) =
      ("", 0, some (OciErr.unparseableState UnmErr.syntaxError ("\x7b".toList))) :=
  parseOCIState_no_marker_error _ ({} : GoState) _ rfl (by decide)

/-- Claim C10 counterexample: the payload `{"pid":true}` strictly decodes as
a JSON object, yet `ParseOCIState` returns an error (the `pid` field has the
wrong type, and the recovery pattern finds no marker), so "every input that
strictly decodes as a JSON object yields a nil error" fails. -/
theorem parseOCIState_object_type_error_cex :
    parseJson ("\x7b\"pid\":true\x7d".toList) =
      some (Jv.obj [(keyPid, Jv.bool true)])
    ∧ ParseOCIState ("\x7b\"pid\":true\x7d".toList) =
      ("", 0, some (OciErr.unparseableState UnmErr.typeMismatch
        ("\x7b\"pid\":true\x7d".toList))) :=
  ⟨rfl, rfl⟩

/-- Claim C10 (amended): for every input that strictly decodes as a JSON
object whose fields also unmarshal into the State shape without a type
error, `ParseOCIState` returns a nil error with the decoded id and pid; when
no key folds to `id` (resp. `pid`) the default "" (resp. 0) is returned, so
no presence or positivity validation happens on success. -/
theorem parseOCIState_strict_object_defaults (buf : List Char)
    (kvs : List (List Char × Jv)) (st : GoState)
    (hp : parseJson buf = some (Jv.obj kvs))
    (hu : unmJ ({} : GoState) (Jv.obj kvs) = (st, none)) :
    ParseOCIState buf = (st.id, st.pid, none)
    ∧ ((∀ kv ∈ kvs, foldKey kv.1 ≠ keyId) → st.id = "")
    ∧ ((∀ kv ∈ kvs, foldKey kv.1 ≠ keyPid) → st.pid = 0) := by
  have hg : goUnmarshal buf ({} : GoState) = (st, none) := by
    unfold goUnmarshal
    rw [hp]
    exact hu
  have hfold : kvs.foldl stepField (({} : GoState), none) = (st, none) := hu
  refine ⟨by simp only [ParseOCIState, hg], ?_, ?_⟩
  · intro h
    have h3 := foldl_stepField_id kvs (({} : GoState), none) h
    rw [hfold] at h3
    exact h3
  · intro h
    have h3 := foldl_stepField_pid kvs (({} : GoState), none) h
    rw [hfold] at h3
    exact h3

/-- Witness for the amended C10 at the empty object. -/
theorem parseOCIState_strict_object_defaults_witness :
    ParseOCIState ("\x7b\x7d".toList) = ("", 0, none) :=
  (parseOCIState_strict_object_defaults ("\x7b\x7d".toList) [] ({} : GoState) rfl rfl).1
